import Mathlib

/-!
# Verification of the fastkml attribute registry and codec dispatch system

Shallow embedding of `src/fastkml/registry.py`, `src/fastkml/helpers.py` and
`src/fastkml/links.py`: the registry of per-type descriptors, the codec
library of decode/encode helpers, and the `Link` participating type.

Python conventions are embedded explicitly:
* `Dict[str, X]` becomes an insertion-ordered association list with the
  `d[k] = v` (replace in place, else append) and `d.update(...)` operations;
* `Any` values flowing through decode become the closed inductive `Val`;
* exceptions become `Except PyErr`;
* `str.strip`, `int(...)`, `float(...)` and truthiness are modelled after
  the Python builtins on the relevant input space (ASCII digits, signs,
  underscore separators, decimal/exponent notation, `inf`/`nan`).
-/

set_option autoImplicit false
set_option linter.unusedVariables false

namespace FastKML

/-- Python exception kinds raised by the embedded code: `ValueError` from
`int`/`float`/`Enum` conversions, `OverflowError` from `int(inf)`, and
`TypeError` from a keyword call that does not bind to the callee's
parameters. -/
inductive PyErr where
  | valueError
  | overflowError
  | typeError
  deriving DecidableEq, Repr

/-- Model of a Python `float` value: a finite value (represented exactly as a
rational; binary64 rounding and overflow-to-infinity are outside the model and
unused by the theorems), the infinities, or `nan`. -/
inductive PyFloat where
  | finite (q : ℚ)
  | inf
  | ninf
  | nan
  deriving DecidableEq, Repr

/-- An XML element as used by the code under `fastkml.types.Element` /
`config.etree`: a qualified tag, optional text, and an ordered list of
children.  `find` and `findall` match direct children by qualified tag. -/
inductive Element where
  | mk (tag : String) (text : Option String) (children : List Element)
  deriving Repr

def Element.tag : Element → String
  | .mk t _ _ => t

def Element.text : Element → Option String
  | .mk _ tx _ => tx

def Element.children : Element → List Element
  | .mk _ _ cs => cs

@[simp] theorem Element.tag_mk (t : String) (x : Option String) (c : List Element) :
    (Element.mk t x c).tag = t := rfl

@[simp] theorem Element.text_mk (t : String) (x : Option String) (c : List Element) :
    (Element.mk t x c).text = x := rfl

@[simp] theorem Element.children_mk (t : String) (x : Option String) (c : List Element) :
    (Element.mk t x c).children = c := rfl

/-- Python `element.find(name)`: first direct child with the given qualified tag,
`None` when there is none. -/
def Element.find (e : Element) (name : String) : Option Element :=
  e.children.find? (fun c => c.tag == name)

/-- Python `element.findall(name)`: all direct children with the given qualified tag,
in document order. -/
def Element.findall (e : Element) (name : String) : List Element :=
  e.children.filter (fun c => c.tag == name)

/-- Python `config.etree.SubElement(element, tag)` followed by setting the new
node's text: appends a fresh child with the given tag and text. -/
def Element.subElement (e : Element) (tag : String) (text : Option String) : Element :=
  .mk e.tag e.text (e.children ++ [.mk tag text []])

/-- Python `element.append(child)`. -/
def Element.append (e : Element) (child : Element) : Element :=
  .mk e.tag e.text (e.children ++ [child])

/-- A decoded Python value (`Any` in the source's type annotations). `vdict`
embeds an `Any` holding a `Dict[str, Any]`, `vobj cls e` a participating
`_XMLObject` instance of class `cls` built from element `e`, `venum v` an
enumeration member whose `.value` is `v`. -/
inductive Val where
  | vnone
  | vstr (s : String)
  | vbool (b : Bool)
  | vint (n : ℤ)
  | vfloat (f : PyFloat)
  | venum (value : String)
  | vobj (cls : String) (e : Element)
  | vlist (xs : List Val)
  | vdict (d : List (String × Val))
  deriving Repr

/-- Insertion-ordered Python dictionary with string keys. -/
abbrev PyDict (α : Type) := List (String × α)

/-- Python `d[k] = v`: replace the value in place when the key exists
(keeping its position), otherwise append the new entry at the end. -/
def dictSet {α : Type} : PyDict α → String → α → PyDict α
  | [], k, v => [(k, v)]
  | (k', v') :: rest, k, v =>
      if k' == k then (k, v) :: rest else (k', v') :: dictSet rest k v

/-- Python `d.get(k)` / `d[k]` lookup (the first — unique — matching key). -/
def dictGet? {α : Type} (d : PyDict α) (k : String) : Option α :=
  (d.find? (fun p => p.1 == k)).map (fun p => p.2)

/-- Python `d.get(k, default)`. -/
def dictGetD {α : Type} (d : PyDict α) (k : String) (default : α) : α :=
  (dictGet? d k).getD default

/-- Python `d.update(other)`: set every entry of `other` into `d`, in order. -/
def dictUpdate {α : Type} (d other : PyDict α) : PyDict α :=
  other.foldl (fun acc p => dictSet acc p.1 p.2) d

@[simp] theorem dictGet?_nil {α : Type} (k : String) : dictGet? ([] : PyDict α) k = none := rfl

theorem dictGet?_cons {α : Type} (k' : String) (v' : α) (rest : PyDict α) (k : String) :
    dictGet? ((k', v') :: rest) k = if k' == k then some v' else dictGet? rest k := by
  simp only [dictGet?, List.find?]
  by_cases h : (k' == k) <;> simp [h]

theorem dictGet?_dictSet {α : Type} (d : PyDict α) (k k' : String) (v : α) :
    dictGet? (dictSet d k v) k' = if k == k' then some v else dictGet? d k' := by
  induction d with
  | nil =>
    simp only [dictSet, dictGet?_cons, dictGet?_nil]
  | cons hd tl ih =>
    obtain ⟨k₀, v₀⟩ := hd
    by_cases h0 : k₀ = k
    · subst h0
      simp only [dictSet, beq_self_eq_true, if_true]
      rw [dictGet?_cons, dictGet?_cons]
      by_cases h1 : (k₀ == k') <;> simp [h1]
    · have h0b : (k₀ == k) = false := by simpa using h0
      simp only [dictSet, h0b, Bool.false_eq_true, if_false]
      rw [dictGet?_cons, dictGet?_cons, ih]
      by_cases h1 : k₀ = k'
      · subst h1
        have hkk : (k == k₀) = false := by
          simpa using fun h => h0 h.symm
        simp [hkk]
      · have h1b : (k₀ == k') = false := by simpa using h1
        simp [h1b]

/-! ## Python builtin models: `str.strip`, `str.lower`, `int()`, `float()` -/

/-- The whitespace characters removed by Python's `str.strip()`. -/
def isPySpace (c : Char) : Bool :=
  c == ' ' || c == '\t' || c == '\n' || c == '\r' || c == '\x0b' || c == '\x0c'

/-- Python `str.strip()`. -/
def pyStrip (s : String) : String :=
  .mk (((s.toList.dropWhile isPySpace).reverse.dropWhile isPySpace).reverse)

/-- ASCII lower-casing of one character. -/
def pyCharLower (c : Char) : Char :=
  if 'A' ≤ c ∧ c ≤ 'Z' then Char.ofNat (c.toNat + 32) else c

/-- Python `str.lower()` (ASCII case folding suffices here). -/
def pyLower (s : String) : String :=
  .mk (s.toList.map pyCharLower)

/-- A nonempty ASCII digit sequence with optional single underscore
separators strictly between digits, as accepted by Python's `int()` and
`float()` on strings. -/
def digitsU : List Char → Bool
  | [] => false
  | [c] => c.isDigit
  | c :: c' :: rest =>
      c.isDigit && (if c' == '_' then digitsU rest else digitsU (c' :: rest))

/-- Numeric value of a digit sequence, ignoring underscore separators. -/
def digitsVal (cs : List Char) : ℕ :=
  (cs.filter (fun c => c != '_')).foldl (fun n c => 10 * n + (c.toNat - 48)) 0

/-- Python `int(s)` for a string `s`: strip whitespace, optional sign, digit
sequence.  `none` models the `ValueError` raised on anything else. -/
def pyParseInt (s : String) : Option ℤ :=
  let cs := (pyStrip s).toList
  let sb : ℤ × List Char :=
    match cs with
    | '+' :: r => (1, r)
    | '-' :: r => (-1, r)
    | r => (1, r)
  if digitsU sb.2 then some (sb.1 * digitsVal sb.2) else none

/-- Split a character list at the first separator satisfying `p`; `none` when
no separator occurs. -/
def splitFirst (p : Char → Bool) : List Char → Option (List Char × List Char)
  | [] => none
  | c :: rest =>
      if p c then some ([], rest)
      else
        match splitFirst p rest with
        | some (a, b) => some (c :: a, b)
        | none => none

/-- Python `float(s)` for a string `s`: strip, optional sign, then
case-insensitive `inf`/`infinity`/`nan` or decimal notation
`[digits][.digits][(e|E)[sign]digits]` with at least one mantissa digit
(underscore separators allowed).  `none` models `ValueError`.  Values whose
magnitude exceeds the binary64 range (which Python turns into `inf`) are
outside the model and unused by the theorems. -/
def pyParseFloat (s : String) : Option PyFloat :=
  let cs := (pyStrip s).toList
  let sb : Bool × List Char :=
    match cs with
    | '+' :: r => (false, r)
    | '-' :: r => (true, r)
    | r => (false, r)
  let neg := sb.1
  let body := sb.2
  let low : String := .mk (body.map Char.toLower)
  if low = "inf" ∨ low = "infinity" then some (if neg then .ninf else .inf)
  else if low = "nan" then some .nan
  else
    let mantExp : Option (List Char × ℤ) :=
      match splitFirst (fun c => c == 'e' || c == 'E') body with
      | none => some (body, 0)
      | some (m, e) =>
          let se : ℤ × List Char :=
            match e with
            | '+' :: r => (1, r)
            | '-' :: r => (-1, r)
            | r => (1, r)
          if digitsU se.2 then some (m, se.1 * digitsVal se.2) else none
    match mantExp with
    | none => none
    | some (mant, ex) =>
        let ipFp : Option (List Char × List Char) :=
          match splitFirst (fun c => c == '.') mant with
          | none => if digitsU mant then some (mant, []) else none
          | some (ip, fp) =>
              if (ip.isEmpty || digitsU ip) && (fp.isEmpty || digitsU fp)
                  && !(ip.isEmpty && fp.isEmpty) then
                some (ip, fp)
              else none
        match ipFp with
        | none => none
        | some (ip, fp) =>
            let m : ℕ := digitsVal (ip ++ fp)
            let shift : ℤ := ex - (fp.filter (fun c => c != '_')).length
            let scaledNum : ℕ := if 0 ≤ shift then m * 10 ^ shift.toNat else m
            let den : ℕ := if 0 ≤ shift then 1 else 10 ^ (-shift).toNat
            let signedNum : ℤ := if neg then -(scaledNum : ℤ) else (scaledNum : ℤ)
            some (.finite (mkRat signedNum den))

/-- Truncation toward zero of an exact rational. -/
def ratTrunc (q : ℚ) : ℤ :=
  (Int.ofNat (q.num.natAbs / q.den)) * (if q.num < 0 then -1 else 1)

/-- Python `int(f)` for a float `f`: truncate toward zero; `nan` raises
`ValueError`, the infinities raise `OverflowError`. -/
def pyFloatToInt : PyFloat → Except PyErr ℤ
  | .finite q => .ok (ratTrunc q)
  | .inf => .error .overflowError
  | .ninf => .error .overflowError
  | .nan => .error .valueError

/-- Python truthiness of an embedded value. -/
def pyTruthy : Val → Bool
  | .vnone => false
  | .vstr s => s != ""
  | .vbool b => b
  | .vint n => n != 0
  | .vfloat (.finite q) => q != 0
  | .vfloat _ => true
  | .venum _ => true
  | .vobj _ _ => true
  | .vlist xs => !xs.isEmpty
  | .vdict d => !d.isEmpty

/-! ## Collaborator contracts not part of the sources -/

/-- Modelled from the spec: the verbosity flag is an "opaque formatting hint"
merely passed through (`fastkml.enums.Verbosity` is not in the sources). -/
inductive Verbosity where
  | quiet
  | normal
  | verbose
  deriving DecidableEq, Repr

/-- A namespace-prefix map (`name_spaces: Optional[Dict[str, str]]`). -/
abbrev NSMap := List (String × String)

/-- Modelled from the spec: an enumerated type is identified with its value
set — decode must "look up child text in the target enumerated type's value
set" (`fastkml.enums` is not in the sources).  Calling the class on a string
returns the member with that value or raises `ValueError`. -/
structure EnumClass where
  values : List String

/-- Python `enum_class(text)`: Python `Enum` lookup by value. -/
def EnumClass.call (ec : EnumClass) (s : String) : Except PyErr Val :=
  if ec.values.contains s then .ok (.venum s) else .error .valueError

/-- Modelled from the spec: the participating-type contract — a type-level
tag-name accessor (`get_tag_name`) and a type-level factory building an
instance from an element (`class_from_element`); `fastkml.base` is not in the
sources.  The factory is modelled as total; nested-failure propagation is not
needed by the claims settled here. -/
structure XmlClass where
  name : String
  tag_name : String
  from_element : String → Option NSMap → Element → Bool → Val

/-- A participating object as the generic encoders see it: its namespace
prefix (`obj.ns`) and its attribute dictionary; `getattr(obj, a, None)` reads
the dictionary with default `None`. -/
structure PyObj where
  ns : String
  attrs : PyDict Val

/-- Python `getattr(obj, attr_name, None)`. -/
def getattrD (obj : PyObj) (attr : String) : Val :=
  dictGetD obj.attrs attr .vnone

/-- The string written by `subelement.text = getattr(obj, attr_name)`;
text-kind attributes hold strings. -/
def Val.asText : Val → String
  | .vstr s => s
  | _ => ""

/-- The string written by `str(int(getattr(obj, attr_name)))` for a boolean
attribute. -/
def Val.asBoolText : Val → String
  | .vbool b => if b then "1" else "0"
  | _ => ""

/-- The string written by `str(getattr(obj, attr_name))` for an integer
attribute. -/
def Val.asIntText : Val → String
  | .vint n => toString n
  | _ => ""

/-- The string written by `str(getattr(obj, attr_name))` for a float
attribute.  The exact shortest-roundtrip rendering of binary64 is outside the
model; no theorem depends on this string's shape. -/
def Val.asFloatText : Val → String
  | .vfloat (.finite q) => toString q
  | .vfloat .inf => "inf"
  | .vfloat .ninf => "-inf"
  | .vfloat .nan => "nan"
  | _ => ""

/-- The `.value` of an enumeration-member attribute (`enum_subelement` writes
`getattr(obj, attr_name).value`). -/
def Val.enumValue : Val → String
  | .venum v => v
  | _ => ""

/-- The element produced by a nested object's own `etree_element(precision,
verbosity)` — the participating-type contract models the instance as carrying
its produced subtree. -/
def Val.objElement : Val → Element
  | .vobj _ e => e
  | _ => .mk "" none []

/-! ## Codec library: encoders (`src/fastkml/helpers.py`) -/

/-- Embedding of `text_subelement`: append a child with the attribute's text when the
attribute is truthy; otherwise append nothing. -/
def text_subelement (obj : PyObj) (element : Element) (attr_name : String)
    (node_name : String) : Element :=
  if pyTruthy (getattrD obj attr_name) then
    element.subElement (obj.ns ++ node_name) (some (getattrD obj attr_name).asText)
  else element

/-- Embedding of `bool_subelement`: append a child with text `str(int(value))` when the
attribute `is not None`. -/
def bool_subelement (obj : PyObj) (element : Element) (attr_name : String)
    (node_name : String) : Element :=
  match getattrD obj attr_name with
  | .vnone => element
  | v => element.subElement (obj.ns ++ node_name) (some v.asBoolText)

/-- Embedding of `int_subelement`: append a child with text `str(value)` when the
attribute `is not None`. -/
def int_subelement (obj : PyObj) (element : Element) (attr_name : String)
    (node_name : String) : Element :=
  match getattrD obj attr_name with
  | .vnone => element
  | v => element.subElement (obj.ns ++ node_name) (some v.asIntText)

/-- Embedding of `float_subelement`: append a child with text `str(value)` when the
attribute `is not None`. -/
def float_subelement (obj : PyObj) (element : Element) (attr_name : String)
    (node_name : String) (precision : Option ℤ) : Element :=
  match getattrD obj attr_name with
  | .vnone => element
  | v => element.subElement (obj.ns ++ node_name) (some v.asFloatText)

/-- Embedding of `enum_subelement`: append a child with text `value.value` when the
attribute is truthy (enumeration members are always truthy in Python). -/
def enum_subelement (obj : PyObj) (element : Element) (attr_name : String)
    (node_name : String) : Element :=
  if pyTruthy (getattrD obj attr_name) then
    element.subElement (obj.ns ++ node_name) (some (getattrD obj attr_name).enumValue)
  else element

/-- Embedding of `xml_subelement`: append the nested object's own produced subtree when
the attribute is truthy. -/
def xml_subelement (obj : PyObj) (element : Element) (attr_name : String)
    (node_name : Option String) (precision : Option ℤ) (verbosity : Verbosity) : Element :=
  if pyTruthy (getattrD obj attr_name) then
    element.append (getattrD obj attr_name).objElement
  else element

/-- Embedding of `xml_subelement_list`: when the attribute is truthy, append one produced
subtree per list element, preserving list order. -/
def xml_subelement_list (obj : PyObj) (element : Element) (attr_name : String)
    (node_name : Option String) (precision : Option ℤ) (verbosity : Verbosity) : Element :=
  if pyTruthy (getattrD obj attr_name) then
    match getattrD obj attr_name with
    | .vlist xs => xs.foldl (fun e v => e.append v.objElement) element
    | _ => element
  else element

/-! ## Codec library: decoders (`src/fastkml/helpers.py`) -/

/-- Embedding of `subelement_text_kwarg`: stripped text of the named child; absent child
or empty/whitespace-only text gives `{}`. -/
def subelement_text_kwarg (element : Element) (ns : String)
    (name_spaces : Option NSMap) (node_name : String) (kwarg : String)
    (strict : Bool) : PyDict Val :=
  match element.find (ns ++ node_name) with
  | none => []
  | some node =>
    match node.text with
    | some t => if t != "" && pyStrip t != "" then [(kwarg, .vstr (pyStrip t))] else []
    | none => []

/-- Embedding of `subelement_bool_kwarg`: strict mode parses the text as an integer and
interprets zero/non-zero; lenient mode accepts case-insensitive
`"1"/"true"` and `"0"/"false"`, then falls back to `bool(int(float(text)))`
with `ValueError` swallowed. -/
def subelement_bool_kwarg (element : Element) (ns : String)
    (name_spaces : Option NSMap) (node_name : String) (kwarg : String)
    (strict : Bool) : Except PyErr (PyDict Val) :=
  match element.find (ns ++ node_name) with
  | none => .ok []
  | some node =>
    match node.text with
    | none => .ok []
    | some t =>
      if t != "" && pyStrip t != "" then
        if strict then
          match pyParseInt (pyStrip t) with
          | some n => .ok [(kwarg, .vbool (n != 0))]
          | none => .error .valueError
        else if pyLower (pyStrip t) == "1" || pyLower (pyStrip t) == "true" then
          .ok [(kwarg, .vbool true)]
        else if pyLower (pyStrip t) == "0" || pyLower (pyStrip t) == "false" then
          .ok [(kwarg, .vbool false)]
        else
          match pyParseFloat (pyStrip t) with
          | none => .ok []
          | some f =>
            match pyFloatToInt f with
            | .ok n => .ok [(kwarg, .vbool (n != 0))]
            | .error .valueError => .ok []
            | .error e => .error e
      else .ok []

/-- Embedding of `subelement_int_kwarg`: parse the named child's text as an integer;
`ValueError` is re-raised under strict mode and swallowed (empty result)
under lenient mode. -/
def subelement_int_kwarg (element : Element) (ns : String)
    (name_spaces : Option NSMap) (node_name : String) (kwarg : String)
    (strict : Bool) : Except PyErr (PyDict Val) :=
  match element.find (ns ++ node_name) with
  | none => .ok []
  | some node =>
    match node.text with
    | none => .ok []
    | some t =>
      if t != "" && pyStrip t != "" then
        match pyParseInt (pyStrip t) with
        | some n => .ok [(kwarg, .vint n)]
        | none => if strict then .error .valueError else .ok []
      else .ok []

/-- Embedding of `subelement_float_kwarg`: parse the named child's text as a float;
`ValueError` is re-raised under strict mode and swallowed under lenient
mode. -/
def subelement_float_kwarg (element : Element) (ns : String)
    (name_spaces : Option NSMap) (node_name : String) (kwarg : String)
    (strict : Bool) : Except PyErr (PyDict Val) :=
  match element.find (ns ++ node_name) with
  | none => .ok []
  | some node =>
    match node.text with
    | none => .ok []
    | some t =>
      if t != "" && pyStrip t != "" then
        match pyParseFloat (pyStrip t) with
        | some f => .ok [(kwarg, .vfloat f)]
        | none => if strict then .error .valueError else .ok []
      else .ok []

/-- Embedding of `subelement_enum_kwarg`: look the stripped text up in the enumerated
type's value set by calling the class; the strictness flag is not consulted
anywhere in the body. -/
def subelement_enum_kwarg (element : Element) (ns : String)
    (name_spaces : Option NSMap) (node_name : String) (kwarg : String)
    (enum_class : EnumClass) (strict : Bool) : Except PyErr (PyDict Val) :=
  match element.find (ns ++ node_name) with
  | none => .ok []
  | some node =>
    match node.text with
    | none => .ok []
    | some t =>
      if t != "" && pyStrip t != "" then
        match enum_class.call (pyStrip t) with
        | .ok v => .ok [(kwarg, v)]
        | .error e => .error e
      else .ok []

/-- Embedding of `xml_subelement_kwarg`: find the child named by the nested type's own tag
name and build an instance from it; absent child gives `{}`. -/
def xml_subelement_kwarg (element : Element) (ns : String)
    (name_spaces : Option NSMap) (node_name : Option String) (kwarg : String)
    (obj_class : XmlClass) (strict : Bool) : PyDict Val :=
  match element.find (ns ++ obj_class.tag_name) with
  | none => []
  | some sub => [(kwarg, obj_class.from_element ns name_spaces sub strict)]

/-- Embedding of `xml_subelement_list_kwarg`: for each candidate class in the order
supplied, find all matching children in document order and build instances,
extending one accumulating list; the accumulated list is returned under
`kwarg` unconditionally. -/
def xml_subelement_list_kwarg (element : Element) (ns : String)
    (name_spaces : Option NSMap) (kwarg : String) (obj_classes : List XmlClass)
    (strict : Bool) : PyDict Val :=
  let args_list := obj_classes.foldl
    (fun acc c =>
      let subs := element.findall (ns ++ c.tag_name)
      if !subs.isEmpty then
        acc ++ subs.map (fun s => c.from_element ns name_spaces s strict)
      else acc)
    []
  [(kwarg, .vlist args_list)]

/-! ## The registry (`src/fastkml/registry.py`) -/

/-- A Python class as `Registry.get` sees it: its name and its method
resolution order (`cls.__mro__`: the class itself first, `object` last). -/
structure PyType where
  name : String
  mro : List String

/-- Embedding of `RegistryItem`: an immutable descriptor binding one attribute to a node
name, its accepted classes, and its codec pair.  `get_kwarg` is any function
conforming to the `GetKWArgs` protocol of registry.py (it receives element,
ns, name_spaces, node_name, attr_name, classes, strict), `set_element` any
function conforming to `SetElement` (its mutation of the destination element
is returned). -/
structure RegistryItem where
  classes : List String
  attr_name : String
  get_kwarg : Element → String → Option NSMap → Option String → String → List String →
    Bool → Except PyErr (PyDict Val)
  set_element : PyObj → Element → String → Option String → Option ℤ → Verbosity → Element
  node_name : Option String := none

/-- The registry's internal state `_registry : Dict[Type, List[RegistryItem]]`,
keyed here by class name. -/
abbrev Registry := PyDict (List RegistryItem)

/-- Embedding of `Registry.__init__`: the empty catalog. -/
def Registry.empty : Registry := []

/-- Embedding of `Registry.register`: fetch the class's own list (default `[]`), append
the item, store the list back. -/
def Registry.register (r : Registry) (cls : PyType) (item : RegistryItem) : Registry :=
  dictSet r cls.name (dictGetD r cls.name [] ++ [item])

/-- Embedding of `Registry.get`: walk `reversed(cls.__mro__[:-1])` and concatenate each
class's directly-registered list (`items.extend(self._registry.get(parent,
[]))`). -/
def Registry.get (r : Registry) (cls : PyType) : List RegistryItem :=
  (cls.mro.dropLast.reverse).flatMap (fun p => dictGetD r p [])

/-- Embedding of `Registry.get` with the registry state threaded explicitly, statement by
statement: `parents` is computed, `items` starts empty and is extended with
`self._registry.get(parent, [])` — a pure dictionary read with a default —
and the body contains no store to `self._registry`, so the incoming state is
returned unchanged next to the freshly built list. -/
def Registry.getS (r : Registry) (cls : PyType) : List RegistryItem × Registry :=
  let parents := cls.mro.dropLast.reverse
  let items := parents.foldl (fun items p => items ++ dictGetD r p []) []
  (items, r)

/-- Embedding of `Registry.get_kwargs`: for each resolved descriptor, call its decode
function and execute `kwargs[item.attr_name] = item.get_kwarg(...)` — the
returned mapping itself (embedded as `Val.vdict`) is stored under the
descriptor's `attr_name`; an exception from any decode aborts the call. -/
def Registry.get_kwargs (r : Registry) (cls : PyType) (element : Element)
    (ns : String) (name_spaces : Option NSMap) (strict : Bool) :
    Except PyErr (PyDict Val) :=
  (r.get cls).foldlM
    (fun kwargs item => do
      let res ← item.get_kwarg element ns name_spaces item.node_name item.attr_name
        item.classes strict
      pure (dictSet kwargs item.attr_name (.vdict res)))
    []

/-- Embedding of `Registry.get_kwargs` with the registry state threaded explicitly: the
body only reads the resolved descriptor list. -/
def Registry.get_kwargsS (r : Registry) (cls : PyType) (element : Element)
    (ns : String) (name_spaces : Option NSMap) (strict : Bool) :
    Except PyErr (PyDict Val) × Registry :=
  (Registry.get_kwargs r cls element ns name_spaces strict, (Registry.getS r cls).2)

/-- Embedding of `Registry.sub_element`: for each resolved descriptor of the object's
type, invoke its `set_element` encode function against the destination
element, in resolution order. -/
def Registry.sub_element (r : Registry) (cls : PyType) (obj : PyObj)
    (element : Element) (precision : Option ℤ) (verbosity : Verbosity) : Element :=
  (r.get cls).foldl
    (fun e item => item.set_element obj e item.attr_name item.node_name precision verbosity)
    element

/-- A chronological sequence of `register` calls applied to a fresh registry. -/
def applyRegisters (calls : List (PyType × RegistryItem)) : Registry :=
  calls.foldl (fun r c => r.register c.1 c.2) Registry.empty

/-! ## The `Link` participating type (`src/fastkml/links.py`) -/

/-- Python keyword-call binding: a call with keyword arguments binds iff
every supplied keyword names a declared parameter and every parameter
without a default is supplied; otherwise the call raises `TypeError` before
the callee's body runs.  `params` lists `(parameter name, has_default)`. -/
def kwBindOk (params : List (String × Bool)) (supplied : List String) : Bool :=
  supplied.all (fun k => params.any (fun p => p.1 == k)) &&
    params.all (fun p => p.2 || supplied.contains p.1)

/-- Raise `TypeError` when the keyword arguments do not bind. -/
def checkKwCall (params : List (String × Bool)) (supplied : List String) :
    Except PyErr Unit :=
  if kwBindOk params supplied then .ok () else .error .typeError

/-- Keyword-only parameters of `subelement_text_kwarg` (helpers.py 155-163);
only `name_spaces` has a default. -/
def subelement_text_kwarg_params : List (String × Bool) :=
  [("element", false), ("ns", false), ("name_spaces", true), ("node_name", false),
   ("kwarg", false), ("strict", false)]

/-- Keyword-only parameters of `subelement_float_kwarg` (helpers.py 218-226). -/
def subelement_float_kwarg_params : List (String × Bool) :=
  [("element", false), ("ns", false), ("name_spaces", true), ("node_name", false),
   ("kwarg", false), ("strict", false)]

/-- Keyword-only parameters of `subelement_enum_kwarg` (helpers.py 240-248):
`enum_class` is required and has no default; there is no `classes`
parameter. -/
def subelement_enum_kwarg_params : List (String × Bool) :=
  [("element", false), ("ns", false), ("name_spaces", true), ("node_name", false),
   ("kwarg", false), ("enum_class", false), ("strict", false)]

/-- Keywords supplied by each `subelement_text_kwarg(...)` call in
`Link._get_kwargs` (links.py 152-158 and the two analogous calls). -/
def link_text_call_keywords : List String :=
  ["element", "ns", "node_name", "kwarg", "strict"]

/-- Keywords supplied by each `subelement_enum_kwarg(...)` call in
`Link._get_kwargs` (links.py 179-187 and 190-198): note `classes=...` in
place of the declared `enum_class` parameter. -/
def link_enum_call_keywords : List String :=
  ["element", "ns", "name_spaces", "node_name", "kwarg", "classes", "strict"]

/-- Keywords supplied by each `subelement_float_kwarg(...)` call in
`Link._get_kwargs` (links.py 201-207 and the two analogous calls). -/
def link_float_call_keywords : List String :=
  ["element", "ns", "node_name", "kwarg", "strict"]

/-- Modelled from the spec: `RefreshMode`, an enumerated type given by its
value set (`fastkml.enums` is not in the sources). -/
def RefreshMode : EnumClass :=
  ⟨["onChange", "onInterval", "onExpire"]⟩

/-- Modelled from the spec: `ViewRefreshMode`, an enumerated type given by
its value set (`fastkml.enums` is not in the sources). -/
def ViewRefreshMode : EnumClass :=
  ⟨["never", "onStop", "onRequest", "onRegion"]⟩

/-- The `Link` element's registered attributes (`src/fastkml/links.py`).
Enumeration attributes hold the member's value string, float attributes a
`PyFloat`.  `id`/`target_id` live on `_BaseObject`, which is not in the
sources; its contributions are modelled from the spec as empty. -/
structure Link where
  ns : String
  href : Option String := none
  refresh_mode : Option String := none
  refresh_interval : Option PyFloat := none
  view_refresh_mode : Option String := none
  view_refresh_time : Option PyFloat := none
  view_bound_scale : Option PyFloat := none
  view_format : Option String := none
  http_query : Option String := none

/-- Embed an optional string attribute. -/
def optStr : Option String → Val
  | some s => .vstr s
  | none => .vnone

/-- Embed an optional enumeration-member attribute. -/
def optEnum : Option String → Val
  | some v => .venum v
  | none => .vnone

/-- Embed an optional float attribute. -/
def optFloat : Option PyFloat → Val
  | some f => .vfloat f
  | none => .vnone

/-- The `getattr` view of a `Link` instance for the generic encoders. -/
def Link.toPyObj (l : Link) : PyObj :=
  { ns := l.ns
    attrs :=
      [("href", optStr l.href),
       ("refresh_mode", optEnum l.refresh_mode),
       ("refresh_interval", optFloat l.refresh_interval),
       ("view_refresh_mode", optEnum l.view_refresh_mode),
       ("view_refresh_time", optFloat l.view_refresh_time),
       ("view_bound_scale", optFloat l.view_bound_scale),
       ("view_format", optStr l.view_format),
       ("http_query", optStr l.http_query)] }

/-- Embedding of `Link.etree_element` (links.py 76-134): the base element — modelled from
the spec as the object's own node, with the type's tag and no children (the
base id/target-id XML attributes are outside the element model) — followed by
the eight encoder calls in source order. -/
def Link.etree_element (l : Link) (precision : Option ℤ) (verbosity : Verbosity) :
    Element :=
  let obj := l.toPyObj
  let element := Element.mk (l.ns ++ "Link") none []
  let element := text_subelement obj element "href" "href"
  let element := text_subelement obj element "view_format" "viewFormat"
  let element := text_subelement obj element "http_query" "httpQuery"
  let element := enum_subelement obj element "refresh_mode" "refreshMode"
  let element := enum_subelement obj element "view_refresh_mode" "viewRefreshMode"
  let element := float_subelement obj element "view_refresh_time" "viewRefreshTime" precision
  let element := float_subelement obj element "refresh_interval" "refreshInterval" precision
  let element := float_subelement obj element "view_bound_scale" "viewBoundScale" precision
  element

/-- Embedding of `Link._get_kwargs` (links.py 136-227): the base kwargs — modelled from
the spec as empty — then the eight `kwargs.update(...)` steps in source
order.  Each helper call first binds its keyword arguments (`checkKwCall`);
the two enum steps supply the keyword `classes`, which
`subelement_enum_kwarg` does not declare (its required parameter is
`enum_class`), so each of those calls raises `TypeError` at the call site and
the helper body — rendered here with the intended enumeration for typing —
is never reached. -/
def Link.get_kwargs (ns : String) (name_spaces : Option NSMap) (element : Element)
    (strict : Bool) : Except PyErr (PyDict Val) := do
  let kwargs : PyDict Val := []
  let _ ← checkKwCall subelement_text_kwarg_params link_text_call_keywords
  let kwargs := dictUpdate kwargs (subelement_text_kwarg element ns none "href" "href" strict)
  let _ ← checkKwCall subelement_text_kwarg_params link_text_call_keywords
  let kwargs := dictUpdate kwargs
    (subelement_text_kwarg element ns none "viewFormat" "view_format" strict)
  let _ ← checkKwCall subelement_text_kwarg_params link_text_call_keywords
  let kwargs := dictUpdate kwargs
    (subelement_text_kwarg element ns none "httpQuery" "http_query" strict)
  let _ ← checkKwCall subelement_enum_kwarg_params link_enum_call_keywords
  let r₁ ← subelement_enum_kwarg element ns name_spaces "refreshMode" "refresh_mode"
    RefreshMode strict
  let kwargs := dictUpdate kwargs r₁
  let _ ← checkKwCall subelement_enum_kwarg_params link_enum_call_keywords
  let r₂ ← subelement_enum_kwarg element ns name_spaces "viewRefreshMode"
    "view_refresh_mode" ViewRefreshMode strict
  let kwargs := dictUpdate kwargs r₂
  let _ ← checkKwCall subelement_float_kwarg_params link_float_call_keywords
  let r₃ ← subelement_float_kwarg element ns none "refreshInterval" "refresh_interval" strict
  let kwargs := dictUpdate kwargs r₃
  let _ ← checkKwCall subelement_float_kwarg_params link_float_call_keywords
  let r₄ ← subelement_float_kwarg element ns none "viewRefreshTime" "view_refresh_time" strict
  let kwargs := dictUpdate kwargs r₄
  let _ ← checkKwCall subelement_float_kwarg_params link_float_call_keywords
  let r₅ ← subelement_float_kwarg element ns none "viewBoundScale" "view_bound_scale" strict
  let kwargs := dictUpdate kwargs r₅
  pure kwargs

/-! ## Supporting lemmas -/

/-- Eta for elements. -/
theorem Element.eta : ∀ e : Element, Element.mk e.tag e.text e.children = e
  | .mk _ _ _ => rfl

theorem dictGetD_dictSet (r : Registry) (k k' : String) (v : List RegistryItem) :
    dictGetD (dictSet r k v) k' [] = if k == k' then v else dictGetD r k' [] := by
  simp only [dictGetD, dictGet?_dictSet]
  by_cases h : (k == k') <;> simp [h]

theorem dictGetD_register (r : Registry) (cls : PyType) (item : RegistryItem) (p : String) :
    dictGetD (r.register cls item) p [] =
      if cls.name == p then dictGetD r p [] ++ [item] else dictGetD r p [] := by
  simp only [Registry.register, dictGetD_dictSet]
  by_cases h : cls.name = p
  · subst h; simp
  · have hb : (cls.name == p) = false := by simpa using h
    simp [hb]

theorem dictGetD_foldl_register (calls : List (PyType × RegistryItem)) (r : Registry)
    (p : String) :
    dictGetD (calls.foldl (fun acc c => Registry.register acc c.1 c.2) r) p [] =
      dictGetD r p [] ++ (calls.filter (fun c => c.1.name == p)).map (fun c => c.2) := by
  induction calls generalizing r with
  | nil => simp
  | cons c cs ih =>
    simp only [List.foldl_cons, List.filter_cons]
    rw [ih]
    by_cases h : (c.1.name == p)
    · simp [dictGetD_register, h]
    · simp [dictGetD_register, h]

theorem dictGetD_applyRegisters (calls : List (PyType × RegistryItem)) (p : String) :
    dictGetD (applyRegisters calls) p [] =
      (calls.filter (fun c => c.1.name == p)).map (fun c => c.2) := by
  have h := dictGetD_foldl_register calls Registry.empty p
  simpa [applyRegisters, Registry.empty] using h

theorem foldl_append_eq_flatMap {α β : Type} (f : α → List β) :
    ∀ (l : List α) (init : List β),
      l.foldl (fun acc a => acc ++ f a) init = init ++ l.flatMap f := by
  intro l
  induction l with
  | nil => simp
  | cons a as ih => intro init; simp [ih, List.append_assoc]

/-! ## C3 -/

/-- C3: For every type and every chronological sequence of `register`
calls applied to a fresh registry, `Registry.get` returns the concatenation,
over the type's ancestors in `reversed(cls.__mro__[:-1])` order (most-general
ancestor first, the type itself last), of each ancestor's directly-registered
items in the order the register calls were made: registrations accumulate by
appending. -/
theorem registry_get_resolves_ancestor_concatenation
    (calls : List (PyType × RegistryItem)) (cls : PyType) :
    Registry.get (applyRegisters calls) cls =
      (cls.mro.dropLast.reverse).flatMap
        (fun p => (calls.filter (fun c => c.1.name == p)).map (fun c => c.2)) := by
  unfold Registry.get
  have h : ∀ p, dictGetD (applyRegisters calls) p [] =
      (calls.filter (fun c => c.1.name == p)).map (fun c => c.2) :=
    dictGetD_applyRegisters calls
  simp only [h]

/-! ## C10 -/

/-- C10: `Registry.get` and `Registry.get_kwargs` never modify the
registry's stored state: the state-threaded translations return the incoming
registry unchanged — so querying a type with no registration (directly or
via any ancestor) creates no entry, every key maps to exactly what it mapped
to before — and the returned item list is freshly built by extending an
empty list, equal to the pure resolution of the unchanged state, so no later
`get`, `get_kwargs` or `sub_element` call can be affected by what the caller
does with a previously returned list. -/
theorem registry_queries_preserve_state (r : Registry) (cls : PyType)
    (element : Element) (ns : String) (nsm : Option NSMap) (strict : Bool) :
    (Registry.getS r cls).2 = r ∧
    (Registry.get_kwargsS r cls element ns nsm strict).2 = r ∧
    (∀ p : String, dictGet? (Registry.getS r cls).2 p = dictGet? r p) ∧
    (Registry.getS r cls).1 = Registry.get r cls ∧
    Registry.sub_element (Registry.getS r cls).2 cls = Registry.sub_element r cls := by
  refine ⟨rfl, rfl, fun p => rfl, ?_, rfl⟩
  have h1 : (Registry.getS r cls).1
      = (cls.mro.dropLast.reverse).foldl (fun items p => items ++ dictGetD r p []) [] := rfl
  rw [h1, foldl_append_eq_flatMap]
  simp [Registry.get]

/-! ## Fixtures: conforming descriptors and small hierarchies -/

/-- A decode function conforming to registry.py's `GetKWArgs` protocol: the
text codec adapted to take its node name from the descriptor. -/
def textGetKwarg : Element → String → Option NSMap → Option String → String → List String →
    Bool → Except PyErr (PyDict Val) :=
  fun element ns nsm node_name attr_name cls strict =>
    .ok (subelement_text_kwarg element ns nsm (node_name.getD "") attr_name strict)

/-- An encode function conforming to registry.py's `SetElement` protocol:
the text codec adapted likewise. -/
def textSetElement : PyObj → Element → String → Option String → Option ℤ → Verbosity →
    Element :=
  fun obj e attr_name node_name precision verbosity =>
    text_subelement obj e attr_name (node_name.getD "")

/-- A text descriptor for attribute `href` under node `href`. -/
def hrefItem : RegistryItem :=
  { classes := ["str"], attr_name := "href", get_kwarg := textGetKwarg,
    set_element := textSetElement, node_name := some "href" }

/-- The `Link` class as `Registry.get` sees it. -/
def linkType : PyType :=
  ⟨"Link", ["Link", "_BaseObject", "_XMLObject", "object"]⟩

/-- A registry wiring `Link` to the single `href` descriptor. -/
def demoRegistry : Registry := applyRegisters [(linkType, hrefItem)]

/-- A `Link` element without an `href` child. -/
def elemNoHref : Element := .mk "Link" none []

/-- A `Link` element with an `href` child. -/
def elemWithHref : Element := .mk "Link" none [.mk "href" (some "http://x") []]

/-! ## C1 -/

/-- C1 (code bug): `Registry.get_kwargs` executes
`kwargs[item.attr_name] = item.get_kwarg(...)`: it stores the decode-result
mapping itself under the attribute name, and does so even when that mapping
is empty.  Decoding an element without the registered child yields the entry
`"href" ↦ {}` instead of no entry, and with the child present the entry
holds the wrapping mapping `{"href": "http://x"}` rather than the decoded
value `"http://x"` — not a mapping that can be spread into the constructor
as the claim states. -/
theorem registry_get_kwargs_stores_decode_result_dict :
    Registry.get_kwargs demoRegistry linkType elemNoHref "" none true
        = .ok [("href", .vdict [])] ∧
    [("href", Val.vdict [])] ≠ ([] : PyDict Val) ∧
    Registry.get_kwargs demoRegistry linkType elemWithHref "" none true
        = .ok [("href", .vdict [("href", .vstr "http://x")])] ∧
    Val.vdict [("href", .vstr "http://x")] ≠ Val.vstr "http://x" := by
  refine ⟨rfl, by simp, rfl, by simp⟩

/-! ## C5 -/

/-- A base-class text descriptor for attribute `mode` under node
`refreshMode`. -/
def modeBaseItem : RegistryItem :=
  { classes := ["str"], attr_name := "mode", get_kwarg := textGetKwarg,
    set_element := textSetElement, node_name := some "refreshMode" }

/-- A subtype re-registration of attribute `mode` under node
`viewRefreshMode`. -/
def modeSubItem : RegistryItem :=
  { classes := ["str"], attr_name := "mode", get_kwarg := textGetKwarg,
    set_element := textSetElement, node_name := some "viewRefreshMode" }

/-- A base class. -/
def cBaseType : PyType := ⟨"Base", ["Base", "object"]⟩

/-- A subtype of `Base`. -/
def cSubType : PyType := ⟨"Sub", ["Sub", "Base", "object"]⟩

/-- Base registers `mode`, the subtype re-registers it. -/
def overrideRegistry : Registry :=
  applyRegisters [(cBaseType, modeBaseItem), (cSubType, modeSubItem)]

/-- A node carrying values for both the ancestor's and the subtype's node
names. -/
def elemBothModes : Element :=
  .mk "Sub" none
    [.mk "refreshMode" (some "onChange") [], .mk "viewRefreshMode" (some "onStop") []]

/-- C5 (counterexample): Decoding a node containing values for both the
ancestor's and the subtype's node names stores, under the shared attribute
name, the subtype descriptor's decode-result mapping `{"mode": "onStop"}` —
not the decoded value `"onStop"` that the claim promises. -/
theorem get_kwargs_subtype_value_counterexample :
    Registry.get_kwargs overrideRegistry cSubType elemBothModes "" none true
        = .ok [("mode", .vdict [("mode", .vstr "onStop")])] ∧
    Val.vdict [("mode", .vstr "onStop")] ≠ Val.vstr "onStop" := by
  refine ⟨rfl, by simp⟩

/-- C5 (amended): When a subtype re-registers a descriptor for an
attribute name already registered by an ancestor, `Registry.get_kwargs`
yields under that attribute name the decode result produced by the subtype's
descriptor (wrapped as the stored mapping, per C1): the later descriptor in
the resolved sequence overwrites the earlier one. -/
theorem get_kwargs_subtype_result_overwrites (element : Element) (ns : String)
    (nsm : Option NSMap) (strict : Bool) :
    Registry.get_kwargs overrideRegistry cSubType element ns nsm strict
      = .ok [("mode",
          .vdict (subelement_text_kwarg element ns nsm "viewRefreshMode" "mode" strict))] :=
  rfl

/-! ## C4 -/

theorem foldl_set_element_append (obj : PyObj) (precision : Option ℤ)
    (verbosity : Verbosity) (emit : RegistryItem → List Element) :
    ∀ (items : List RegistryItem) (element : Element),
      (∀ item ∈ items, ∀ e : Element,
        item.set_element obj e item.attr_name item.node_name precision verbosity
          = .mk e.tag e.text (e.children ++ emit item)) →
      items.foldl
        (fun e item => item.set_element obj e item.attr_name item.node_name precision verbosity)
        element
        = .mk element.tag element.text (element.children ++ items.flatMap emit) := by
  intro items
  induction items with
  | nil =>
    intro element h
    simp [Element.eta]
  | cons item rest ih =>
    intro element h
    simp only [List.foldl_cons, List.flatMap_cons]
    rw [h item (by simp)]
    rw [ih _ (fun it hit e => h it (by simp [hit]) e)]
    simp [List.append_assoc]

/-- C4: During encode, `Registry.sub_element` invokes every resolved
descriptor exactly once, in resolution order: whenever each resolved
descriptor's `set_element` appends its emitted nodes to the destination's
children, the final children are the original ones followed by the
emissions concatenated in resolution order — base-type descriptors' nodes
precede subtype-added ones, and a subtype re-registration for an
already-registered attribute contributes an additional emission rather than
replacing the ancestor's. -/
theorem sub_element_fires_each_descriptor_once_in_order
    (r : Registry) (cls : PyType) (obj : PyObj) (element : Element)
    (precision : Option ℤ) (verbosity : Verbosity)
    (emit : RegistryItem → List Element)
    (happ : ∀ item ∈ r.get cls, ∀ e : Element,
      item.set_element obj e item.attr_name item.node_name precision verbosity
        = .mk e.tag e.text (e.children ++ emit item)) :
    Registry.sub_element r cls obj element precision verbosity
      = .mk element.tag element.text (element.children ++ (r.get cls).flatMap emit) :=
  foldl_set_element_append obj precision verbosity emit (r.get cls) element happ

/-- An object whose `href` attribute holds a value. -/
def wObj : PyObj := ⟨"", [("href", .vstr "http://x")]⟩

/-- A subtype re-registration of the `href` attribute under node `href2`. -/
def wItem2 : RegistryItem :=
  { classes := ["str"], attr_name := "href", get_kwarg := textGetKwarg,
    set_element := textSetElement, node_name := some "href2" }

/-- Base registers `href` under node `href`; the subtype re-registers the
same attribute under node `href2`. -/
def wRegistry : Registry := applyRegisters [(cBaseType, hrefItem), (cSubType, wItem2)]

/-- The nodes each fixture descriptor emits for `wObj`. -/
def wEmit : RegistryItem → List Element :=
  fun item => [.mk (item.node_name.getD "") (some "http://x") []]

/-- Witness for C4: with a subtype re-registering an ancestor's attribute
under a second node name, encode emits both nodes, ancestor's first. -/
theorem sub_element_duplicate_registration_witness :
    (∀ item ∈ wRegistry.get cSubType, ∀ e : Element,
      item.set_element wObj e item.attr_name item.node_name none .normal
        = .mk e.tag e.text (e.children ++ wEmit item)) ∧
    Registry.sub_element wRegistry cSubType wObj (.mk "Sub" none []) none .normal
      = .mk "Sub" none
          [.mk "href" (some "http://x") [], .mk "href2" (some "http://x") []] := by
  have happ : ∀ item ∈ wRegistry.get cSubType, ∀ e : Element,
      item.set_element wObj e item.attr_name item.node_name none .normal
        = .mk e.tag e.text (e.children ++ wEmit item) := by
    have hl : wRegistry.get cSubType = [hrefItem, wItem2] := rfl
    rw [hl]
    intro item hmem e
    rcases List.mem_cons.mp hmem with h1 | hmem2
    · subst h1; rfl
    · rcases List.mem_cons.mp hmem2 with h2 | h3
      · subst h2; rfl
      · cases h3
  refine ⟨happ, ?_⟩
  rw [sub_element_fires_each_descriptor_once_in_order wRegistry cSubType wObj
    (.mk "Sub" none []) none .normal wEmit happ]
  rfl

/-! ## C2 -/

/-- A concrete `Link` instance with an in-range attribute value. -/
def c2Link : Link := { ns := "", href := some "http://example.com/" }

/-- C2 (code bug): The round trip cannot reconstruct any `Link`:
`Link._get_kwargs` always raises `TypeError`, in strict and lenient mode
alike, because its two `subelement_enum_kwarg(...)` calls supply the keyword
`classes`, which the helper does not declare (its required parameter is
`enum_class`).  In particular decoding the element encoded from `c2Link`
fails in both modes, and the enum call's keywords do not bind. -/
theorem link_roundtrip_decode_raises_type_error :
    (∀ (ns : String) (nsm : Option NSMap) (element : Element) (strict : Bool),
      Link.get_kwargs ns nsm element strict = .error .typeError) ∧
    Link.get_kwargs "" none (Link.etree_element c2Link none .normal) true
      = .error .typeError ∧
    Link.get_kwargs "" none (Link.etree_element c2Link none .normal) false
      = .error .typeError ∧
    kwBindOk subelement_enum_kwarg_params link_enum_call_keywords = false := by
  exact ⟨fun ns nsm element strict => rfl, rfl, rfl, rfl⟩

/-! ## C6 -/

/-- C6: For the integer and float decoders, a present child with
non-whitespace text that does not parse as the target kind raises
`ValueError` under strict mode and yields the empty result (attribute
omitted) under lenient mode; the enumerated-value decoder performs the same
value-set lookup whatever the strictness flag, so text outside the value set
raises in strict and in lenient mode alike. -/
theorem int_float_enum_strict_lenient_divergence
    (e node : Element) (ns node_name kwarg t : String) (nsm : Option NSMap)
    (ec : EnumClass)
    (hfind : e.find (ns ++ node_name) = some node)
    (htext : node.text = some t)
    (hne : (t != "" && pyStrip t != "") = true) :
    (pyParseInt (pyStrip t) = none →
      subelement_int_kwarg e ns nsm node_name kwarg true = .error .valueError ∧
      subelement_int_kwarg e ns nsm node_name kwarg false = .ok []) ∧
    (pyParseFloat (pyStrip t) = none →
      subelement_float_kwarg e ns nsm node_name kwarg true = .error .valueError ∧
      subelement_float_kwarg e ns nsm node_name kwarg false = .ok []) ∧
    (∀ strict₁ strict₂ : Bool,
      subelement_enum_kwarg e ns nsm node_name kwarg ec strict₁
        = subelement_enum_kwarg e ns nsm node_name kwarg ec strict₂) ∧
    (ec.values.contains (pyStrip t) = false →
      ∀ strict : Bool,
        subelement_enum_kwarg e ns nsm node_name kwarg ec strict = .error .valueError) := by
  refine ⟨?_, ?_, ?_, ?_⟩
  · intro hp
    constructor <;> simp [subelement_int_kwarg, hfind, htext, hne, hp]
  · intro hp
    constructor <;> simp [subelement_float_kwarg, hfind, htext, hne, hp]
  · intro s₁ s₂
    rfl
  · intro hc strict
    have hmem : pyStrip t ∉ ec.values := by simpa using hc
    simp [subelement_enum_kwarg, hfind, htext, hne, EnumClass.call, hmem]

/-- A node whose `refreshMode` child text is neither numeric nor a
`RefreshMode` value. -/
def elemMaybe : Element := .mk "Link" none [.mk "refreshMode" (some "maybe") []]

/-- Witness for C6 at text `"maybe"`. -/
theorem int_float_enum_divergence_witness :
    (elemMaybe.find ("" ++ "refreshMode") = some (.mk "refreshMode" (some "maybe") []) ∧
     ("maybe" != "" && pyStrip "maybe" != "") = true ∧
     pyParseInt (pyStrip "maybe") = none ∧
     pyParseFloat (pyStrip "maybe") = none ∧
     RefreshMode.values.contains (pyStrip "maybe") = false) ∧
    subelement_int_kwarg elemMaybe "" none "refreshMode" "refresh_mode" true
      = .error .valueError ∧
    subelement_int_kwarg elemMaybe "" none "refreshMode" "refresh_mode" false = .ok [] ∧
    subelement_float_kwarg elemMaybe "" none "refreshMode" "refresh_mode" true
      = .error .valueError ∧
    subelement_float_kwarg elemMaybe "" none "refreshMode" "refresh_mode" false = .ok [] ∧
    subelement_enum_kwarg elemMaybe "" none "refreshMode" "refresh_mode" RefreshMode true
      = .error .valueError ∧
    subelement_enum_kwarg elemMaybe "" none "refreshMode" "refresh_mode" RefreshMode false
      = .error .valueError := by
  have h := int_float_enum_strict_lenient_divergence elemMaybe
    (.mk "refreshMode" (some "maybe") []) "" "refreshMode" "refresh_mode" "maybe" none
    RefreshMode rfl rfl rfl
  exact ⟨⟨rfl, rfl, rfl, rfl, rfl⟩, (h.1 rfl).1, (h.1 rfl).2, (h.2.1 rfl).1, (h.2.1 rfl).2,
    h.2.2.2 rfl true, h.2.2.2 rfl false⟩

/-! ## C7 -/

/-- A node with a single `visibility` child carrying the given text. -/
def elemBool (t : String) : Element := .mk "r" none [.mk "visibility" (some t) []]

/-- C7: Boolean decode: under strict mode the child text is parsed as an
integer and interpreted zero/non-zero (`ValueError` propagates); under
lenient mode, case-insensitive `"true"/"1"` yields `True` and `"false"/"0"`
yields `False`, otherwise a float-then-integer coercion is attempted and on
`ValueError` the attribute is omitted.  Concretely: lenient decode of
`"TRUE"` yields `True`, of `"0"` yields `False`, of `"2.0"` yields `True`,
of `"maybe"` yields no entry; strict decode of `"maybe"` raises. -/
theorem bool_decode_strict_lenient_semantics :
    (∀ (e node : Element) (ns node_name kwarg t : String) (nsm : Option NSMap),
      e.find (ns ++ node_name) = some node → node.text = some t →
      (t != "" && pyStrip t != "") = true →
      subelement_bool_kwarg e ns nsm node_name kwarg true
        = (match pyParseInt (pyStrip t) with
           | some n => .ok [(kwarg, .vbool (n != 0))]
           | none => .error .valueError)) ∧
    subelement_bool_kwarg (elemBool "TRUE") "" none "visibility" "visibility" false
      = .ok [("visibility", .vbool true)] ∧
    subelement_bool_kwarg (elemBool "0") "" none "visibility" "visibility" false
      = .ok [("visibility", .vbool false)] ∧
    subelement_bool_kwarg (elemBool "2.0") "" none "visibility" "visibility" false
      = .ok [("visibility", .vbool true)] ∧
    subelement_bool_kwarg (elemBool "maybe") "" none "visibility" "visibility" false
      = .ok [] ∧
    subelement_bool_kwarg (elemBool "maybe") "" none "visibility" "visibility" true
      = .error .valueError := by
  refine ⟨?_, rfl, rfl, ?_, rfl, rfl⟩
  · intro e node ns node_name kwarg t nsm hfind htext hne
    simp [subelement_bool_kwarg, hfind, htext, hne]
  · rfl

/-- Witness for C7's strict-mode clause at text `"3"` (non-zero integer text
decodes to `True` under strict mode). -/
theorem bool_decode_strict_witness :
    ((elemBool "3").find ("" ++ "visibility") = some (.mk "visibility" (some "3") []) ∧
     ("3" != "" && pyStrip "3" != "") = true) ∧
    subelement_bool_kwarg (elemBool "3") "" none "visibility" "visibility" true
      = .ok [("visibility", .vbool true)] := by
  have h := bool_decode_strict_lenient_semantics.1 (elemBool "3")
    (.mk "visibility" (some "3") []) "" "visibility" "visibility" "3" none rfl rfl rfl
  exact ⟨⟨rfl, rfl⟩, by rw [h]; rfl⟩

/-! ## C9 -/

theorem xml_list_foldl (e : Element) (ns : String) (nsm : Option NSMap) (strict : Bool) :
    ∀ (cs : List XmlClass) (init : List Val),
      cs.foldl (fun acc c =>
          if !(e.findall (ns ++ c.tag_name)).isEmpty then
            acc ++ (e.findall (ns ++ c.tag_name)).map (fun s => c.from_element ns nsm s strict)
          else acc) init
        = init ++ cs.flatMap (fun c =>
            (e.findall (ns ++ c.tag_name)).map (fun s => c.from_element ns nsm s strict)) := by
  intro cs
  induction cs with
  | nil => intro init; simp
  | cons c rest ih =>
    intro init
    simp only [List.foldl_cons, List.flatMap_cons]
    by_cases h : (e.findall (ns ++ c.tag_name)).isEmpty
    · have hnil : e.findall (ns ++ c.tag_name) = [] := by simpa using h
      simp [hnil, ih]
    · have hb : (e.findall (ns ++ c.tag_name)).isEmpty = false := by simpa using h
      simp only [hb, Bool.not_false, if_pos]
      rw [ih]
      simp [List.append_assoc]

theorem xml_subelement_list_kwarg_eq (e : Element) (ns : String) (nsm : Option NSMap)
    (kw : String) (cs : List XmlClass) (strict : Bool) :
    xml_subelement_list_kwarg e ns nsm kw cs strict
      = [(kw, .vlist (cs.flatMap (fun c =>
          (e.findall (ns ++ c.tag_name)).map (fun s => c.from_element ns nsm s strict))))] := by
  simp only [xml_subelement_list_kwarg]
  rw [xml_list_foldl e ns nsm strict cs []]
  simp

/-- A `TypeA` child. -/
def a1 : Element := .mk "TypeA" (some "a1") []
/-- A `TypeB` child. -/
def b1 : Element := .mk "TypeB" (some "b1") []
/-- A `TypeA` child. -/
def a2 : Element := .mk "TypeA" (some "a2") []
/-- A `TypeA` child. -/
def a3 : Element := .mk "TypeA" (some "a3") []
/-- A `TypeB` child. -/
def b2 : Element := .mk "TypeB" (some "b2") []

/-- The candidate class `TypeA`. -/
def typeA : XmlClass := ⟨"TypeA", "TypeA", fun ns nsm e strict => .vobj "TypeA" e⟩
/-- The candidate class `TypeB`. -/
def typeB : XmlClass := ⟨"TypeB", "TypeB", fun ns nsm e strict => .vobj "TypeB" e⟩

/-- A node with three `TypeA`-tagged and two `TypeB`-tagged children in
interleaved document order. -/
def interleavedElem : Element := .mk "Doc" none [a1, b1, a2, a3, b2]

/-- C9: Nested object-list decode iterates the candidate types in the
order supplied and, for each, collects all matching children in document
order, concatenating across candidate types: the decoded list is grouped by
candidate type, not interleaved by document position.  In particular, for
candidates `[TypeA, TypeB]` over the interleaved document the result is the
three `TypeA` instances in document order followed by the two `TypeB`
instances in document order. -/
theorem xml_list_decode_grouped_by_class :
    (∀ (e : Element) (ns : String) (nsm : Option NSMap) (kw : String)
      (cs : List XmlClass) (strict : Bool),
      xml_subelement_list_kwarg e ns nsm kw cs strict
        = [(kw, .vlist (cs.flatMap (fun c =>
            (e.findall (ns ++ c.tag_name)).map (fun s => c.from_element ns nsm s strict))))]) ∧
    xml_subelement_list_kwarg interleavedElem "" none "features" [typeA, typeB] true
      = [("features", .vlist
          [.vobj "TypeA" a1, .vobj "TypeA" a2, .vobj "TypeA" a3,
           .vobj "TypeB" b1, .vobj "TypeB" b2])] :=
  ⟨xml_subelement_list_kwarg_eq, rfl⟩

/-! ## C8 -/

/-- The participating `Link` class viewed as a nested-decode candidate. -/
def linkClass : XmlClass := ⟨"Link", "Link", fun ns nsm e strict => .vobj "Link" e⟩

/-- C8 (counterexample): Nested object-list decode of a node with no
matching children returns the entry `"links" ↦ []` — an entry, where the
claim requires every decode function to return an empty result when the
named children are absent. -/
theorem xml_list_decode_absent_entry_counterexample :
    xml_subelement_list_kwarg (.mk "Doc" none []) "" none "links" [linkClass] true
      = [("links", .vlist [])] ∧
    [("links", Val.vlist [])] ≠ ([] : PyDict Val) :=
  ⟨rfl, by simp⟩

/-- The named child is absent, carries no text, or carries only
empty/whitespace-only text — Python's "no value present" condition on the
decode side. -/
def noValueAt (e : Element) (name : String) : Bool :=
  match e.find name with
  | none => true
  | some node =>
    match node.text with
    | none => true
    | some t => !(t != "" && pyStrip t != "")

/-- C8 (amended): Absence is preserved in both directions, with one
exception forced by the code: every encoder appends no child node when the
object's attribute holds no value (`None` for boolean/integer/float, falsy —
empty or `None` — for text/enum/object/list), and every decode function
except `xml_subelement_list_kwarg` returns an empty result — not an error
and not an entry — when the named child is absent or its text is empty or
whitespace-only; `xml_subelement_list_kwarg` instead always returns exactly
one entry holding the (here empty) list of decoded children. -/
theorem absence_preserved_amended :
    (∀ (obj : PyObj) (e : Element) (an nn : String),
      pyTruthy (getattrD obj an) = false → text_subelement obj e an nn = e) ∧
    (∀ (obj : PyObj) (e : Element) (an nn : String),
      getattrD obj an = .vnone → bool_subelement obj e an nn = e) ∧
    (∀ (obj : PyObj) (e : Element) (an nn : String),
      getattrD obj an = .vnone → int_subelement obj e an nn = e) ∧
    (∀ (obj : PyObj) (e : Element) (an nn : String) (p : Option ℤ),
      getattrD obj an = .vnone → float_subelement obj e an nn p = e) ∧
    (∀ (obj : PyObj) (e : Element) (an nn : String),
      pyTruthy (getattrD obj an) = false → enum_subelement obj e an nn = e) ∧
    (∀ (obj : PyObj) (e : Element) (an : String) (nn : Option String) (p : Option ℤ)
      (v : Verbosity),
      pyTruthy (getattrD obj an) = false → xml_subelement obj e an nn p v = e) ∧
    (∀ (obj : PyObj) (e : Element) (an : String) (nn : Option String) (p : Option ℤ)
      (v : Verbosity),
      pyTruthy (getattrD obj an) = false → xml_subelement_list obj e an nn p v = e) ∧
    (∀ (e : Element) (ns nn kw : String) (nsm : Option NSMap) (strict : Bool),
      noValueAt e (ns ++ nn) = true → subelement_text_kwarg e ns nsm nn kw strict = []) ∧
    (∀ (e : Element) (ns nn kw : String) (nsm : Option NSMap) (strict : Bool),
      noValueAt e (ns ++ nn) = true → subelement_bool_kwarg e ns nsm nn kw strict = .ok []) ∧
    (∀ (e : Element) (ns nn kw : String) (nsm : Option NSMap) (strict : Bool),
      noValueAt e (ns ++ nn) = true → subelement_int_kwarg e ns nsm nn kw strict = .ok []) ∧
    (∀ (e : Element) (ns nn kw : String) (nsm : Option NSMap) (strict : Bool),
      noValueAt e (ns ++ nn) = true → subelement_float_kwarg e ns nsm nn kw strict = .ok []) ∧
    (∀ (e : Element) (ns nn kw : String) (nsm : Option NSMap) (ec : EnumClass)
      (strict : Bool),
      noValueAt e (ns ++ nn) = true → subelement_enum_kwarg e ns nsm nn kw ec strict = .ok []) ∧
    (∀ (e : Element) (ns kw : String) (nsm : Option NSMap) (nn : Option String)
      (c : XmlClass) (strict : Bool),
      e.find (ns ++ c.tag_name) = none → xml_subelement_kwarg e ns nsm nn kw c strict = []) ∧
    (∀ (e : Element) (ns kw : String) (nsm : Option NSMap) (cs : List XmlClass)
      (strict : Bool),
      (∀ c ∈ cs, e.findall (ns ++ c.tag_name) = []) →
      xml_subelement_list_kwarg e ns nsm kw cs strict = [(kw, .vlist [])]) := by
  refine ⟨?_, ?_, ?_, ?_, ?_, ?_, ?_, ?_, ?_, ?_, ?_, ?_, ?_, ?_⟩
  · intro obj e an nn h
    simp [text_subelement, h]
  · intro obj e an nn h
    simp [bool_subelement, h]
  · intro obj e an nn h
    simp [int_subelement, h]
  · intro obj e an nn p h
    simp [float_subelement, h]
  · intro obj e an nn h
    simp [enum_subelement, h]
  · intro obj e an nn p v h
    simp [xml_subelement, h]
  · intro obj e an nn p v h
    simp [xml_subelement_list, h]
  · intro e ns nn kw nsm strict hnv
    rcases hfind : e.find (ns ++ nn) with _ | node
    · simp [subelement_text_kwarg, hfind]
    · rcases htext : node.text with _ | t
      · simp [subelement_text_kwarg, hfind, htext]
      · simp only [noValueAt, hfind, htext, Bool.not_eq_true'] at hnv
        simp [subelement_text_kwarg, hfind, htext, hnv]
  · intro e ns nn kw nsm strict hnv
    rcases hfind : e.find (ns ++ nn) with _ | node
    · simp [subelement_bool_kwarg, hfind]
    · rcases htext : node.text with _ | t
      · simp [subelement_bool_kwarg, hfind, htext]
      · simp only [noValueAt, hfind, htext, Bool.not_eq_true'] at hnv
        simp [subelement_bool_kwarg, hfind, htext, hnv]
  · intro e ns nn kw nsm strict hnv
    rcases hfind : e.find (ns ++ nn) with _ | node
    · simp [subelement_int_kwarg, hfind]
    · rcases htext : node.text with _ | t
      · simp [subelement_int_kwarg, hfind, htext]
      · simp only [noValueAt, hfind, htext, Bool.not_eq_true'] at hnv
        simp [subelement_int_kwarg, hfind, htext, hnv]
  · intro e ns nn kw nsm strict hnv
    rcases hfind : e.find (ns ++ nn) with _ | node
    · simp [subelement_float_kwarg, hfind]
    · rcases htext : node.text with _ | t
      · simp [subelement_float_kwarg, hfind, htext]
      · simp only [noValueAt, hfind, htext, Bool.not_eq_true'] at hnv
        simp [subelement_float_kwarg, hfind, htext, hnv]
  · intro e ns nn kw nsm ec strict hnv
    rcases hfind : e.find (ns ++ nn) with _ | node
    · simp [subelement_enum_kwarg, hfind]
    · rcases htext : node.text with _ | t
      · simp [subelement_enum_kwarg, hfind, htext]
      · simp only [noValueAt, hfind, htext, Bool.not_eq_true'] at hnv
        simp [subelement_enum_kwarg, hfind, htext, hnv]
  · intro e ns kw nsm nn c strict hfind
    simp [xml_subelement_kwarg, hfind]
  · intro e ns kw nsm cs strict hall
    rw [xml_subelement_list_kwarg_eq]
    have h : cs.flatMap (fun c =>
        (e.findall (ns ++ c.tag_name)).map (fun s => c.from_element ns nsm s strict)) = [] := by
      induction cs with
      | nil => rfl
      | cons c rest ih =>
        simp only [List.flatMap_cons]
        rw [hall c (by simp), ih (fun c hc => hall c (by simp [hc]))]
        rfl
    rw [h]

/-- Witness for C8: each encoder at an attribute holding no value, each
decoder at an absent child and at a whitespace-only child, and the list
decoder at a document with no matching children. -/
theorem absence_preserved_witness :
    text_subelement ⟨"", []⟩ (.mk "Doc" none []) "href" "href" = .mk "Doc" none [] ∧
    bool_subelement ⟨"", []⟩ (.mk "Doc" none []) "visibility" "visibility"
      = .mk "Doc" none [] ∧
    int_subelement ⟨"", []⟩ (.mk "Doc" none []) "draw_order" "drawOrder"
      = .mk "Doc" none [] ∧
    float_subelement ⟨"", []⟩ (.mk "Doc" none []) "view_bound_scale" "viewBoundScale" none
      = .mk "Doc" none [] ∧
    enum_subelement ⟨"", []⟩ (.mk "Doc" none []) "refresh_mode" "refreshMode"
      = .mk "Doc" none [] ∧
    xml_subelement ⟨"", []⟩ (.mk "Doc" none []) "link" none none .normal
      = .mk "Doc" none [] ∧
    xml_subelement_list ⟨"", []⟩ (.mk "Doc" none []) "links" none none .normal
      = .mk "Doc" none [] ∧
    subelement_text_kwarg (.mk "Doc" none []) "" none "href" "href" true = [] ∧
    subelement_bool_kwarg (.mk "Doc" none [.mk "visibility" (some "  ") []]) "" none
      "visibility" "visibility" true = .ok [] ∧
    subelement_int_kwarg (.mk "Doc" none [.mk "drawOrder" (some "  ") []]) "" none
      "drawOrder" "draw_order" true = .ok [] ∧
    subelement_float_kwarg (.mk "Doc" none []) "" none "viewBoundScale"
      "view_bound_scale" true = .ok [] ∧
    subelement_enum_kwarg (.mk "Doc" none []) "" none "refreshMode" "refresh_mode"
      RefreshMode true = .ok [] ∧
    xml_subelement_kwarg (.mk "Doc" none []) "" none none "link" linkClass true = [] ∧
    xml_subelement_list_kwarg (.mk "Doc" none []) "" none "links" [typeA, typeB] true
      = [("links", .vlist [])] := by
  have h := absence_preserved_amended
  exact ⟨h.1 _ _ _ _ rfl, h.2.1 _ _ _ _ rfl, h.2.2.1 _ _ _ _ rfl,
    h.2.2.2.1 _ _ _ _ _ rfl, h.2.2.2.2.1 _ _ _ _ rfl, h.2.2.2.2.2.1 _ _ _ _ _ _ rfl,
    h.2.2.2.2.2.2.1 _ _ _ _ _ _ rfl,
    h.2.2.2.2.2.2.2.1 _ "" "href" _ none true rfl,
    h.2.2.2.2.2.2.2.2.1 _ "" "visibility" _ none true rfl,
    h.2.2.2.2.2.2.2.2.2.1 _ "" "drawOrder" _ none true rfl,
    h.2.2.2.2.2.2.2.2.2.2.1 _ "" "viewBoundScale" _ none true rfl,
    h.2.2.2.2.2.2.2.2.2.2.2.1 _ "" "refreshMode" _ none RefreshMode true rfl,
    h.2.2.2.2.2.2.2.2.2.2.2.2.1 _ "" "link" none none linkClass true rfl,
    h.2.2.2.2.2.2.2.2.2.2.2.2.2 _ "" "links" none [typeA, typeB] true
      (fun c hc => rfl)⟩

end FastKML
